import Mathlib

/-!
Verification of the NBP currency analyser (`src/classes.py`, class `NBPAnalyser`)
against its natural-language specification.

The embedding is shallow: pandas `DataFrame`s become the `Frame` structure
below (a column-name list, an optional string row index, and a list of rows,
each row a list of `Value` cells); Python exceptions become `Except PyError`
or, for errors raised inside library calls (`pd.to_datetime`, `melt`,
column subscripting), `Option` with `none` as the raised exception.
Decimal rate values are modelled as exact rationals.
-/

/-- Calendar date, as carried by `datetime.date` / pandas datetimes.
Only the fields and the lexicographic order matter for the analyser. -/
structure Date where
  year : Nat
  month : Nat
  day : Nat
deriving DecidableEq, Repr

/-- `datetime.date` comparison: lexicographic on (year, month, day). -/
def Date.ltb (a b : Date) : Bool :=
  a.year < b.year
    || (a.year == b.year
        && (a.month < b.month || (a.month == b.month && a.day < b.day)))

/-- A cell of a pandas `DataFrame`: the analyser only ever stores dates
(after `pd.to_datetime`), numbers, and strings (raw dates and the `no` ids). -/
inductive Value where
  | vDate (d : Date)
  | vNum (q : ℚ)
  | vStr (s : String)
deriving DecidableEq, Repr

/-- A pandas `DataFrame`: named columns, an optional string index
(`none` models the default `RangeIndex`), and rectangular cell rows
(each row aligned positionally with `columns`). -/
structure Frame where
  columns : List String
  index : Option (List String)
  cells : List (List Value)
deriving DecidableEq, Repr

/-- Python exceptions the analyser can raise.  `valueError` and `urlError`
carry the message of the corresponding `ValueError` / `URLError` in
`classes.py`; `libraryError` stands for exceptions raised inside pandas
(bad date strings in `pd.to_datetime`, missing labels in `melt` / `drop` /
`set_index` / column subscripting), which never fire on well-formed data. -/
inductive PyError where
  | valueError (msg : String)
  | urlError (msg : String)
  | libraryError
deriving DecidableEq, Repr

/-- `mapO g l` applies the fallible `g` to every element, failing if any
application fails (the behaviour of a Python loop that may raise). -/
def mapO (g : α → Option β) : List α → Option (List β)
  | [] => some []
  | x :: xs => do
    let y ← g x
    let ys ← mapO g xs
    pure (y :: ys)

/-- Whitespace as recognised by Python `str.split()` with no argument
(ASCII space, tab, newline, carriage return, vertical tab, form feed). -/
def isPySpace (c : Char) : Bool :=
  c.toNat == 32 || c.toNat == 9 || c.toNat == 10
    || c.toNat == 13 || c.toNat == 11 || c.toNat == 12

/-- `NBPAnalyser.format_code`: `''.join(code.split()).upper()`.
Splitting on whitespace runs and re-joining with the empty separator
removes exactly the whitespace characters; `.upper()` then upper-cases
every remaining character. -/
def format_code (code : String) : String :=
  String.mk (((code.toList).filter (fun c => !(isPySpace c))).map Char.toUpper)

theorem toUpper_isPySpace (c : Char) :
    isPySpace (Char.toUpper c) = isPySpace c := by
  unfold Char.toUpper
  by_cases h : 97 ≤ c.toNat ∧ c.toNat ≤ 122
  · rw [if_pos h]
    obtain ⟨h1, h2⟩ := h
    have hlow : isPySpace c = false := by
      simp only [isPySpace, Bool.or_eq_false_iff, beq_eq_false_iff_ne]
      omega
    rw [hlow]
    set n := c.toNat with hn
    interval_cases n <;> decide
  · rw [if_neg h]

theorem toUpper_toUpper (c : Char) :
    Char.toUpper (Char.toUpper c) = Char.toUpper c := by
  by_cases h : 97 ≤ c.toNat ∧ c.toNat ≤ 122
  · have h1 : Char.toUpper c = Char.ofNat (c.toNat - 32) := by
      unfold Char.toUpper
      rw [if_pos h]
    rw [h1]
    obtain ⟨ha, hb⟩ := h
    set n := c.toNat with hn
    interval_cases n <;> decide
  · have h1 : Char.toUpper c = c := by
      unfold Char.toUpper
      rw [if_neg h]
    rw [h1, h1]

/-- C6: `format_code` removes every whitespace character (leading, trailing
and interior), upper-cases everything that remains (each output character is
a fixed point of upper-casing), and maps the empty string to the empty
string; as a Lean function it is pure and total by construction. -/
theorem format_code_spec (s : String) :
    ((format_code s).toList.all (fun c => !(isPySpace c))) = true
      ∧ ((format_code s).toList.all (fun c => Char.toUpper c == c)) = true
      ∧ format_code "" = "" := by
  refine ⟨?_, ?_, rfl⟩
  · simp only [format_code, String.toList, List.all_eq_true, List.mem_map,
      List.mem_filter]
    rintro c ⟨a, ⟨_, ha⟩, rfl⟩
    rw [Bool.not_eq_eq_eq_not, Bool.not_true, toUpper_isPySpace]
    simpa using ha
  · simp only [format_code, String.toList, List.all_eq_true, List.mem_map]
    rintro c ⟨a, _, rfl⟩
    simp [toUpper_toUpper]

/-- The column sequence `_check_frame` compares against:
`np.array(['effectiveDate', 'bid', 'ask', 'spread'])`. -/
def expected_columns : List String := ["effectiveDate", "bid", "ask", "spread"]

/-- `NBPAnalyser._check_frame`: the frame is accepted iff it has as many
columns as expected, the numpy element-wise comparison of the column-name
arrays holds at every position, and `len(data) > 0` (at least one row). -/
def check_frame (data : Frame) : Bool :=
  data.columns.length == expected_columns.length
    && ((data.columns.zip expected_columns).all (fun p => p.1 == p.2))
    && decide (0 < data.cells.length)

/-- One row of the frame produced by `DataFrame.melt`: pandas names the
columns `effectiveDate`, `variable`, `value` (`variable` is a Lean keyword,
hence the field name `var`). -/
structure MeltedRow where
  effectiveDate : Value
  var : String
  value : Value
deriving DecidableEq, Repr

/-- One melted output row: the id cell at position `di`, the melted column
name `c`, and the value cell at position `ci` of the input row. -/
def melt_row (di ci : Nat) (c : String) (row : List Value) :
    Option MeltedRow := do
  let d ← row.get? di
  let v ← row.get? ci
  pure { effectiveDate := d, var := c, value := v }

/-- All melted rows contributed by the single value column `c`: one per
input row, in the original row order. -/
def melt_col (data : Frame) (di : Nat) (c : String) :
    Option (List MeltedRow) := do
  let ci ← data.columns.findIdx? (fun x => x == c)
  mapO (melt_row di ci c) data.cells

/-- `NBPAnalyser._melt_data`: keeps `effectiveDate` as the id column and
melts every other column, in the frame's column order; for each melted
column all input rows appear in their original order.  `none` models the
`KeyError` pandas raises when the id column is missing or a row is ragged. -/
def melt_data (data : Frame) : Option (List MeltedRow) := do
  let di ← data.columns.findIdx? (fun c => c == "effectiveDate")
  let groups ← mapO (melt_col data di)
    (data.columns.filter (fun c => c != "effectiveDate"))
  pure groups.flatten

/-- Numeric content of a cell; aggregation (`min`/`mean`/`max`) is only ever
applied to numeric cells, so the fallback value is never reached on the
frames the analyser builds. -/
def Value.toQ : Value → ℚ
  | .vNum q => q
  | _ => 0

/-- Minimum of a list of rationals (used on non-empty per-group value lists). -/
def listMin : List ℚ → ℚ
  | [] => 0
  | x :: xs => xs.foldl min x

/-- Maximum of a list of rationals (used on non-empty per-group value lists). -/
def listMax : List ℚ → ℚ
  | [] => 0
  | x :: xs => xs.foldl max x

/-- Arithmetic mean of a list of rationals. -/
def listMean (l : List ℚ) : ℚ := l.sum / (l.length : ℚ)

/-- Code-point lexicographic comparison of character lists: the order
Python (and hence a pandas sorted groupby over string keys) puts on
strings. -/
def charListLe : List Char → List Char → Bool
  | [], _ => true
  | _ :: _, [] => false
  | a :: as1, b :: bs1 =>
    if a.toNat < b.toNat then true
    else if b.toNat < a.toNat then false
    else charListLe as1 bs1

/-- Python string comparison `a <= b`: code-point lexicographic. -/
def strLe (a b : String) : Bool := charListLe a.toList b.toList

/-- `groupby('variable').agg(\x7b'value': ['min', 'mean', 'max']\x7d)`:
pandas groups by the distinct keys sorted ascending (`sort=True` default)
and aggregates each group's values.  The result lists one
`(variable, min, mean, max)` entry per distinct key, in ascending key order. -/
def groupby_agg (melted : List MeltedRow) : List (String × ℚ × ℚ × ℚ) :=
  let keys := ((melted.map MeltedRow.var).dedup).insertionSort
    (fun a b => strLe a b = true)
  keys.map (fun k =>
    let vals := ((melted.filter (fun r => r.var == k)).map
      (fun r => r.value.toQ))
    (k, listMin vals, listMean vals, listMax vals))

/-- `NBPAnalyser.get_summary`: validate the frame shape, melt, then group
and aggregate.  The summary frame (index = variable names, columns
`min`/`mean`/`max`) is returned as the ordered list of its rows. -/
def get_summary (data : Frame) :
    Except PyError (List (String × ℚ × ℚ × ℚ)) :=
  if !(check_frame data) then
    .error (.valueError "incorrect format of DataFrame")
  else
    match melt_data data with
    | none => .error .libraryError
    | some melted => .ok (groupby_agg melted)

/-- `data.drop(c, axis=1)`: removes the first column labelled `c` (labels
are unique in every frame the analyser handles); `none` models the
`KeyError` on a missing label. -/
def drop_col (data : Frame) (c : String) : Option Frame := do
  let i ← data.columns.findIdx? (fun x => x == c)
  pure { columns := data.columns.eraseIdx i,
         index := data.index,
         cells := data.cells.map (fun row => row.eraseIdx i) }

/-- `NBPAnalyser.draw_histograms`: validate, drop the `spread` column, melt,
and hand the melted frame to `sns.histplot`.  The figure handle is opaque,
so the observable result modelled here is the melted frame the plotting
collaborator receives. -/
def draw_histograms (data : Frame) : Except PyError (List MeltedRow) :=
  if !(check_frame data) then
    .error (.valueError "incorrect format of DataFrame")
  else
    match (drop_col data "spread").bind melt_data with
    | none => .error .libraryError
    | some melted => .ok melted

/-- `data[c]`: the values of column `c`, top to bottom; `none` models the
`KeyError` on a missing label or a ragged row. -/
def col_values (data : Frame) (c : String) : Option (List Value) := do
  let i ← data.columns.findIdx? (fun x => x == c)
  mapO (fun row => row.get? i) data.cells

/-- `NBPAnalyser.draw_time_series`: validate, then add one `bid` and one
`ask` scatter trace, each with x = `effectiveDate` and y = the rate column.
The figure handle and styling are opaque; the observable result modelled
here is the named (x, y) data of the two traces, in the order added. -/
def draw_time_series (data : Frame) :
    Except PyError (List (String × List Value × List Value)) :=
  if !(check_frame data) then
    .error (.valueError "incorrect format of DataFrame")
  else
    match col_values data "effectiveDate",
        col_values data "bid", col_values data "ask" with
    | some ds, some bs, some asks => .ok [("bid", ds, bs), ("ask", ds, asks)]
    | _, _, _ => .error .libraryError

theorem zip_all_eq_iff (l1 l2 : List String) :
    (l1.length == l2.length && (l1.zip l2).all (fun p => p.1 == p.2)) = true
      ↔ l1 = l2 := by
  induction l1 generalizing l2 with
  | nil => cases l2 <;> simp
  | cons a l ih =>
    cases l2 with
    | nil => simp
    | cons b m =>
      simp only [List.zip_cons_cons, List.all_cons, List.length_cons,
        List.cons.injEq]
      rw [← ih m]
      simp only [Bool.and_eq_true, beq_iff_eq, Nat.add_right_cancel_iff]
      tauto

theorem check_frame_iff (data : Frame) :
    check_frame data = true
      ↔ data.columns = expected_columns ∧ data.cells ≠ [] := by
  unfold check_frame
  simp only [Bool.and_eq_true, decide_eq_true_eq]
  constructor
  · rintro ⟨⟨h1, h2⟩, h3⟩
    refine ⟨(zip_all_eq_iff _ _).1 ?_, List.length_pos.1 h3⟩
    rw [Bool.and_eq_true]
    exact ⟨h1, h2⟩
  · rintro ⟨h1, h2⟩
    have h3 := (zip_all_eq_iff data.columns expected_columns).2 h1
    rw [Bool.and_eq_true] at h3
    exact ⟨h3, List.length_pos.2 h2⟩

/-- C2 counterexample: a one-row frame whose column names are exactly the
canonical four as a set (even a permutation of the canonical sequence) but
in the order `bid, effectiveDate, ask, spread` is rejected by
`_check_frame`, refuting the claim that the check accepts any non-empty
frame whose column *set* matches. -/
theorem check_frame_set_counterexample :
    (List.Perm ["bid", "effectiveDate", "ask", "spread"] expected_columns)
      ∧ check_frame
          { columns := ["bid", "effectiveDate", "ask", "spread"],
            index := none,
            cells := [[Value.vNum 4, Value.vDate ⟨2024, 10, 1⟩,
              Value.vNum 5, Value.vNum 1]] } = false := by
  constructor
  · decide
  · rfl

/-- C2 (amended): `_check_frame` accepts a frame iff its column name
sequence is exactly `effectiveDate, bid, ask, spread` in that order and the
frame has at least one row; whenever the check fails, `get_summary`,
`draw_histograms` and `draw_time_series` all fail with the
`ValueError` carrying "incorrect format of DataFrame" before touching the
data. -/
theorem check_frame_gates (data : Frame) :
    (check_frame data = true
      ↔ data.columns = expected_columns ∧ data.cells ≠ [])
    ∧ (check_frame data = false →
        get_summary data = .error (.valueError "incorrect format of DataFrame")
        ∧ draw_histograms data
            = .error (.valueError "incorrect format of DataFrame")
        ∧ draw_time_series data
            = .error (.valueError "incorrect format of DataFrame")) := by
  refine ⟨check_frame_iff data, fun h => ?_⟩
  refine ⟨?_, ?_, ?_⟩ <;> simp [get_summary, draw_histograms,
    draw_time_series, h]

/-- C2 witness: the empty frame fails the check and all three consumers
reject it with the validation error. -/
theorem check_frame_gates_witness :
    get_summary { columns := [], index := none, cells := [] }
        = .error (.valueError "incorrect format of DataFrame")
      ∧ draw_histograms { columns := [], index := none, cells := [] }
        = .error (.valueError "incorrect format of DataFrame")
      ∧ draw_time_series { columns := [], index := none, cells := [] }
        = .error (.valueError "incorrect format of DataFrame") :=
  (check_frame_gates { columns := [], index := none, cells := [] }).2 rfl

/-- C8: the column comparison in `_check_frame` is positional, not a set
comparison — any frame whose columns are a permutation of the canonical
names but not in the canonical order is rejected, however many rows it has. -/
theorem check_frame_order_sensitive (data : Frame)
    (hperm : List.Perm data.columns expected_columns)
    (hne : data.columns ≠ expected_columns) :
    check_frame data = false := by
  by_contra h
  rw [Bool.not_eq_false] at h
  exact hne ((check_frame_iff data).1 h).1

/-- C8 witness: the canonical names in the order
`bid, effectiveDate, ask, spread` with one row are rejected. -/
theorem check_frame_order_sensitive_witness :
    check_frame
      { columns := ["bid", "effectiveDate", "ask", "spread"],
        index := none,
        cells := [[Value.vNum 4, Value.vDate ⟨2024, 10, 1⟩,
          Value.vNum 5, Value.vNum 1]] } = false :=
  check_frame_order_sensitive
    { columns := ["bid", "effectiveDate", "ask", "spread"],
      index := none,
      cells := [[Value.vNum 4, Value.vDate ⟨2024, 10, 1⟩,
        Value.vNum 5, Value.vNum 1]] } (by decide) (by decide)

/-- One row of a canonical table: a parsed date, the two quoted rates and
their spread (the four columns `_check_frame` demands). -/
structure CRow where
  effectiveDate : Date
  bid : ℚ
  ask : ℚ
  spread : ℚ
deriving DecidableEq, Repr

/-- The `Frame` encoding of a canonical table with the given row index. -/
def mkCanonicalFrame (idx : Option (List String)) (rows : List CRow) :
    Frame :=
  { columns := expected_columns,
    index := idx,
    cells := rows.map (fun r =>
      [Value.vDate r.effectiveDate, Value.vNum r.bid,
       Value.vNum r.ask, Value.vNum r.spread]) }

theorem mapO_map (g : β → Option γ) (h : α → β) (k : α → γ)
    (H : ∀ a, g (h a) = some (k a)) (l : List α) :
    mapO g (l.map h) = some (l.map k) := by
  induction l with
  | nil => rfl
  | cons x xs ih => simp [mapO, H, ih]

theorem check_frame_canonical (idx : Option (List String))
    (rows : List CRow) :
    check_frame (mkCanonicalFrame idx rows) = !(rows.isEmpty) := by
  cases h : rows.isEmpty
  · rw [Bool.not_false, (check_frame_iff (mkCanonicalFrame idx rows)).2]
    refine ⟨rfl, ?_⟩
    simp only [mkCanonicalFrame, ne_eq, List.map_eq_nil_iff]
    rw [List.isEmpty_eq_false] at h
    exact h
  · rw [List.isEmpty_iff] at h
    subst h
    rfl

/-- The melted rows contributed by the `bid` column of a canonical frame. -/
def bidRows (rows : List CRow) : List MeltedRow :=
  rows.map (fun r => ⟨Value.vDate r.effectiveDate, "bid", Value.vNum r.bid⟩)

/-- The melted rows contributed by the `ask` column of a canonical frame. -/
def askRows (rows : List CRow) : List MeltedRow :=
  rows.map (fun r => ⟨Value.vDate r.effectiveDate, "ask", Value.vNum r.ask⟩)

/-- The melted rows contributed by the `spread` column of a canonical frame. -/
def spreadRows (rows : List CRow) : List MeltedRow :=
  rows.map (fun r =>
    ⟨Value.vDate r.effectiveDate, "spread", Value.vNum r.spread⟩)

theorem melt_canonical (idx : Option (List String)) (rows : List CRow) :
    melt_data (mkCanonicalFrame idx rows)
      = some (bidRows rows ++ askRows rows ++ spreadRows rows) := by
  have hb : melt_col (mkCanonicalFrame idx rows) 0 "bid"
      = some (bidRows rows) := by
    show mapO (melt_row 0 1 "bid") (mkCanonicalFrame idx rows).cells
      = some (bidRows rows)
    refine mapO_map _ _ _ (fun r => ?_) rows
    rfl
  have ha : melt_col (mkCanonicalFrame idx rows) 0 "ask"
      = some (askRows rows) := by
    show mapO (melt_row 0 2 "ask") (mkCanonicalFrame idx rows).cells
      = some (askRows rows)
    refine mapO_map _ _ _ (fun r => ?_) rows
    rfl
  have hs : melt_col (mkCanonicalFrame idx rows) 0 "spread"
      = some (spreadRows rows) := by
    show mapO (melt_row 0 3 "spread") (mkCanonicalFrame idx rows).cells
      = some (spreadRows rows)
    refine mapO_map _ _ _ (fun r => ?_) rows
    rfl
  show (mapO (melt_col (mkCanonicalFrame idx rows) 0)
      ["bid", "ask", "spread"]).bind
      (fun groups => some groups.flatten)
    = some (bidRows rows ++ askRows rows ++ spreadRows rows)
  simp [mapO, hb, ha, hs]


theorem charListLe_total (l1 l2 : List Char) :
    charListLe l1 l2 = true ∨ charListLe l2 l1 = true := by
  induction l1 generalizing l2 with
  | nil => left; rfl
  | cons a as1 ih =>
    cases l2 with
    | nil => right; rfl
    | cons b bs1 =>
      rcases Nat.lt_trichotomy a.toNat b.toNat with h | h | h
      · left
        unfold charListLe
        rw [if_pos h]
      · unfold charListLe
        rw [if_neg (by omega), if_neg (by omega), if_neg (by omega),
          if_neg (by omega)]
        exact ih bs1
      · right
        unfold charListLe
        rw [if_pos h]

theorem charListLe_trans (l1 l2 l3 : List Char)
    (h12 : charListLe l1 l2 = true) (h23 : charListLe l2 l3 = true) :
    charListLe l1 l3 = true := by
  induction l1 generalizing l2 l3 with
  | nil => rfl
  | cons a as1 ih =>
    cases l2 with
    | nil => exact absurd h12 (by simp [charListLe])
    | cons b bs1 =>
      cases l3 with
      | nil => exact absurd h23 (by simp [charListLe])
      | cons c cs1 =>
        unfold charListLe at h12 h23 ⊢
        split_ifs at h12 h23 ⊢ <;>
          first
            | rfl
            | omega
            | exact ih bs1 cs1 h12 h23

theorem char_toNat_inj (a b : Char) (h : a.toNat = b.toNat) : a = b :=
  Char.ext (UInt32.toNat.inj h)

theorem charListLe_antisymm (l1 l2 : List Char)
    (h12 : charListLe l1 l2 = true) (h21 : charListLe l2 l1 = true) :
    l1 = l2 := by
  induction l1 generalizing l2 with
  | nil =>
    cases l2 with
    | nil => rfl
    | cons b bs1 => exact absurd h21 (by simp [charListLe])
  | cons a as1 ih =>
    cases l2 with
    | nil => exact absurd h12 (by simp [charListLe])
    | cons b bs1 =>
      unfold charListLe at h12 h21
      split_ifs at h12 h21 <;>
        first
          | omega
          | (rename_i hab hba
             exact congrArg₂ List.cons
               (char_toNat_inj a b (by omega)) (ih bs1 h12 h21))

instance strLe_total : IsTotal String (fun a b => strLe a b = true) :=
  ⟨fun a b => charListLe_total a.toList b.toList⟩

instance strLe_trans : IsTrans String (fun a b => strLe a b = true) :=
  ⟨fun a b c => charListLe_trans a.toList b.toList c.toList⟩

instance strLe_antisymm : IsAntisymm String (fun a b => strLe a b = true) :=
  ⟨fun a b h1 h2 => by
    have h := charListLe_antisymm a.toList b.toList h1 h2
    cases a
    cases b
    exact congrArg String.mk h⟩

theorem mem_const_map (rows : List CRow) (h : rows ≠ []) (b x : String) :
    (x ∈ rows.map (fun _ => b)) ↔ x = b := by
  simp only [List.mem_map]
  constructor
  · rintro ⟨a, _, rfl⟩
    rfl
  · rintro rfl
    obtain ⟨a, ha⟩ := List.exists_mem_of_ne_nil rows h
    exact ⟨a, ha, rfl⟩

theorem melted_vars (rows : List CRow) :
    (bidRows rows ++ askRows rows ++ spreadRows rows).map MeltedRow.var
      = rows.map (fun _ => "bid") ++ rows.map (fun _ => "ask")
        ++ rows.map (fun _ => "spread") := by
  unfold bidRows askRows spreadRows
  rw [List.map_append, List.map_append, List.map_map, List.map_map,
    List.map_map]
  rfl

theorem summary_keys (rows : List CRow) (h : rows ≠ []) :
    (((bidRows rows ++ askRows rows ++ spreadRows rows).map
        MeltedRow.var).dedup).insertionSort (fun a b => strLe a b = true)
      = ["ask", "bid", "spread"] := by
  set K := (bidRows rows ++ askRows rows ++ spreadRows rows).map
    MeltedRow.var with hK
  have hmem : ∀ x, x ∈ K.dedup
      ↔ x ∈ (["ask", "bid", "spread"] : List String) := by
    intro x
    rw [List.mem_dedup, hK, melted_vars rows]
    simp only [List.mem_append, mem_const_map rows h, List.mem_cons,
      List.not_mem_nil, or_false]
    tauto
  have hperm0 : List.Perm K.dedup ["ask", "bid", "spread"] :=
    (List.perm_ext_iff_of_nodup (List.nodup_dedup K) (by decide)).2 hmem
  have hperm1 : List.Perm
      (K.dedup.insertionSort (fun a b => strLe a b = true))
      ["ask", "bid", "spread"] :=
    (List.perm_insertionSort _ _).trans hperm0
  exact List.eq_of_perm_of_sorted hperm1
    (List.sorted_insertionSort _ _) (by decide)

theorem filter_map_eq_self {α β : Type} (f : α → β) (p : β → Bool)
    (l : List α) (H : ∀ a, p (f a) = true) : (l.map f).filter p = l.map f := by
  rw [List.filter_eq_self]
  rintro b hb
  obtain ⟨a, _, rfl⟩ := List.mem_map.1 hb
  exact H a

theorem filter_map_eq_nil {α β : Type} (f : α → β) (p : β → Bool)
    (l : List α) (H : ∀ a, p (f a) = false) : (l.map f).filter p = [] := by
  rw [List.filter_eq_nil_iff]
  rintro b hb
  obtain ⟨a, _, rfl⟩ := List.mem_map.1 hb
  simp [H a]

theorem filter_melted_bid (rows : List CRow) :
    ((bidRows rows ++ askRows rows ++ spreadRows rows).filter
        (fun r => r.var == "bid")).map (fun r => r.value.toQ)
      = rows.map CRow.bid := by
  unfold bidRows askRows spreadRows
  rw [List.filter_append, List.filter_append,
    filter_map_eq_self _ _ rows (fun a => rfl),
    filter_map_eq_nil _ _ rows (fun a => rfl),
    filter_map_eq_nil _ _ rows (fun a => rfl),
    List.append_nil, List.append_nil, List.map_map]
  rfl

theorem filter_melted_ask (rows : List CRow) :
    ((bidRows rows ++ askRows rows ++ spreadRows rows).filter
        (fun r => r.var == "ask")).map (fun r => r.value.toQ)
      = rows.map CRow.ask := by
  unfold bidRows askRows spreadRows
  rw [List.filter_append, List.filter_append,
    filter_map_eq_nil _ _ rows (fun a => rfl),
    filter_map_eq_self _ _ rows (fun a => rfl),
    filter_map_eq_nil _ _ rows (fun a => rfl),
    List.append_nil, List.nil_append, List.map_map]
  rfl

theorem filter_melted_spread (rows : List CRow) :
    ((bidRows rows ++ askRows rows ++ spreadRows rows).filter
        (fun r => r.var == "spread")).map (fun r => r.value.toQ)
      = rows.map CRow.spread := by
  unfold bidRows askRows spreadRows
  rw [List.filter_append, List.filter_append,
    filter_map_eq_nil _ _ rows (fun a => rfl),
    filter_map_eq_nil _ _ rows (fun a => rfl),
    filter_map_eq_self _ _ rows (fun a => rfl),
    List.nil_append, List.nil_append, List.map_map]
  rfl

theorem get_summary_canonical (idx : Option (List String))
    (rows : List CRow) (h : rows ≠ []) :
    get_summary (mkCanonicalFrame idx rows)
      = .ok [("ask", listMin (rows.map CRow.ask),
                listMean (rows.map CRow.ask), listMax (rows.map CRow.ask)),
             ("bid", listMin (rows.map CRow.bid),
                listMean (rows.map CRow.bid), listMax (rows.map CRow.bid)),
             ("spread", listMin (rows.map CRow.spread),
                listMean (rows.map CRow.spread),
                listMax (rows.map CRow.spread))] := by
  have hcf : check_frame (mkCanonicalFrame idx rows) = true := by
    rw [check_frame_canonical]
    simpa using h
  unfold get_summary
  rw [hcf, melt_canonical]
  show Except.ok (groupby_agg
      (bidRows rows ++ askRows rows ++ spreadRows rows)) = _
  unfold groupby_agg
  rw [summary_keys rows h]
  simp only [List.map_cons, List.map_nil, filter_melted_bid,
    filter_melted_ask, filter_melted_spread]

/-- The frame `draw_histograms` builds by dropping the `spread` column of
a canonical table. -/
def droppedFrame (idx : Option (List String)) (rows : List CRow) : Frame :=
  { columns := ["effectiveDate", "bid", "ask"],
    index := idx,
    cells := rows.map (fun r =>
      [Value.vDate r.effectiveDate, Value.vNum r.bid, Value.vNum r.ask]) }

theorem drop_spread_canonical (idx : Option (List String))
    (rows : List CRow) :
    drop_col (mkCanonicalFrame idx rows) "spread"
      = some (droppedFrame idx rows) := by
  show some { columns := ["effectiveDate", "bid", "ask"],
              index := idx,
              cells := (mkCanonicalFrame idx rows).cells.map
                (fun row => row.eraseIdx 3) }
    = some (droppedFrame idx rows)
  rw [Option.some.injEq]
  unfold droppedFrame mkCanonicalFrame
  rw [Frame.mk.injEq]
  refine ⟨rfl, rfl, ?_⟩
  rw [List.map_map]
  rfl

theorem melt_dropped_canonical (idx : Option (List String))
    (rows : List CRow) :
    melt_data (droppedFrame idx rows)
      = some (bidRows rows ++ askRows rows) := by
  have hb : melt_col (droppedFrame idx rows) 0 "bid"
      = some (bidRows rows) := by
    show mapO (melt_row 0 1 "bid") (droppedFrame idx rows).cells
      = some (bidRows rows)
    refine mapO_map _ _ _ (fun r => ?_) rows
    rfl
  have ha : melt_col (droppedFrame idx rows) 0 "ask"
      = some (askRows rows) := by
    show mapO (melt_row 0 2 "ask") (droppedFrame idx rows).cells
      = some (askRows rows)
    refine mapO_map _ _ _ (fun r => ?_) rows
    rfl
  show (mapO (melt_col (droppedFrame idx rows) 0) ["bid", "ask"]).bind
      (fun groups => some groups.flatten)
    = some (bidRows rows ++ askRows rows)
  simp [mapO, hb, ha]

theorem draw_histograms_canonical (idx : Option (List String))
    (rows : List CRow) (h : rows ≠ []) :
    draw_histograms (mkCanonicalFrame idx rows)
      = .ok (bidRows rows ++ askRows rows) := by
  have hcf : check_frame (mkCanonicalFrame idx rows) = true := by
    rw [check_frame_canonical]
    simpa using h
  unfold draw_histograms
  rw [hcf, drop_spread_canonical, Option.some_bind, melt_dropped_canonical]
  rfl

theorem col_values_canonical_date (idx : Option (List String))
    (rows : List CRow) :
    col_values (mkCanonicalFrame idx rows) "effectiveDate"
      = some (rows.map (fun r => Value.vDate r.effectiveDate)) := by
  show mapO (fun row => row.get? 0) (mkCanonicalFrame idx rows).cells = _
  refine mapO_map _ _ _ (fun r => ?_) rows
  rfl

theorem col_values_canonical_bid (idx : Option (List String))
    (rows : List CRow) :
    col_values (mkCanonicalFrame idx rows) "bid"
      = some (rows.map (fun r => Value.vNum r.bid)) := by
  show mapO (fun row => row.get? 1) (mkCanonicalFrame idx rows).cells = _
  refine mapO_map _ _ _ (fun r => ?_) rows
  rfl

theorem col_values_canonical_ask (idx : Option (List String))
    (rows : List CRow) :
    col_values (mkCanonicalFrame idx rows) "ask"
      = some (rows.map (fun r => Value.vNum r.ask)) := by
  show mapO (fun row => row.get? 2) (mkCanonicalFrame idx rows).cells = _
  refine mapO_map _ _ _ (fun r => ?_) rows
  rfl

theorem draw_time_series_canonical (idx : Option (List String))
    (rows : List CRow) (h : rows ≠ []) :
    draw_time_series (mkCanonicalFrame idx rows)
      = .ok [("bid", rows.map (fun r => Value.vDate r.effectiveDate),
                rows.map (fun r => Value.vNum r.bid)),
             ("ask", rows.map (fun r => Value.vDate r.effectiveDate),
                rows.map (fun r => Value.vNum r.ask))] := by
  have hcf : check_frame (mkCanonicalFrame idx rows) = true := by
    rw [check_frame_canonical]
    simpa using h
  unfold draw_time_series
  rw [hcf, col_values_canonical_date, col_values_canonical_bid,
    col_values_canonical_ask]
  rfl

/-- Value of a non-empty all-digit character list (the way the components
of an ISO date string are read). -/
def parseNatAux : Nat → List Char → Option Nat
  | acc, [] => some acc
  | acc, c :: cs =>
    if 48 ≤ c.toNat ∧ c.toNat ≤ 57 then
      parseNatAux (10 * acc + (c.toNat - 48)) cs
    else none

/-- Digit-list reader rejecting the empty component. -/
def parseNatStr : List Char → Option Nat
  | [] => none
  | l => parseNatAux 0 l

/-- Splits a character list at every `-` (the separator of the ISO
`YYYY-MM-DD` date strings returned by the NBP API). -/
def splitDash : List Char → List (List Char)
  | [] => [[]]
  | c :: cs =>
    if c = '-' then [] :: splitDash cs
    else
      match splitDash cs with
      | [] => [[c]]
      | g :: gs => (c :: g) :: gs

/-- `pd.to_datetime` on one ISO `YYYY-MM-DD` string: read the three
dash-separated components and check elementary calendar ranges; `none`
models the exception raised on malformed input. -/
def parseDate (s : String) : Option Date := do
  match splitDash s.toList with
  | [y, m, d] =>
    let yn ← parseNatStr y
    let mn ← parseNatStr m
    let dn ← parseNatStr d
    if 1 ≤ mn ∧ mn ≤ 12 ∧ 1 ≤ dn ∧ dn ≤ 31 then pure ⟨yn, mn, dn⟩
    else none
  | _ => none

/-- One element of the API's `rates` array: `\x7bno, effectiveDate, bid,
ask\x7d` with the id and the date still strings and the two rates numbers. -/
structure RawRate where
  no : String
  effectiveDate : String
  bid : ℚ
  ask : ℚ
deriving DecidableEq, Repr

/-- `pd.DataFrame(json_data['rates'])`: one row per record, columns in the
key order of the rate objects, default range index. -/
def rates_frame (records : List RawRate) : Frame :=
  { columns := ["no", "effectiveDate", "bid", "ask"],
    index := none,
    cells := records.map (fun r =>
      [Value.vStr r.no, Value.vStr r.effectiveDate,
       Value.vNum r.bid, Value.vNum r.ask]) }

/-- `pd.to_datetime` applied to the single cell at position `i` of a row
(`to_datetime` is the identity on cells that are already datetimes; the
analyser never feeds it numbers, so a numeric cell is modelled as the
parse failure). -/
def to_datetime_cell (i : Nat) (row : List Value) : Option (List Value) := do
  let v ← row.get? i
  match v with
  | .vStr s => do
    let d ← parseDate s
    pure (row.set i (Value.vDate d))
  | .vDate d => pure (row.set i (Value.vDate d))
  | .vNum _ => none

/-- `data[c] = pd.to_datetime(data[c])`: re-parse the string cells of
column `c` as dates in place. -/
def to_datetime_col (data : Frame) (c : String) : Option Frame := do
  let i ← data.columns.findIdx? (fun x => x == c)
  let cells ← mapO (to_datetime_cell i) data.cells
  pure { data with cells := cells }

/-- The index entry a row contributes under `set_index`: the string cell
at position `i` (the NBP ids are strings). -/
def index_cell (i : Nat) (row : List Value) : Option String := do
  let v ← row.get? i
  match v with
  | .vStr s => pure s
  | _ => none

/-- `data.set_index('no')` followed by `data.index.name = None`: the
values of the column become the row index and the column disappears from
the data. -/
def set_index_col (data : Frame) (c : String) : Option Frame := do
  let i ← data.columns.findIdx? (fun x => x == c)
  let idx ← mapO (index_cell i) data.cells
  pure { columns := data.columns.eraseIdx i,
         index := some idx,
         cells := data.cells.map (fun row => row.eraseIdx i) }

/-- One row of the element-wise column difference: the numeric cells at
positions `ia` and `ib` subtracted and the result appended. -/
def diff_cell (ia ib : Nat) (row : List Value) : Option (List Value) := do
  let va ← row.get? ia
  let vb ← row.get? ib
  match va, vb with
  | .vNum x, .vNum y => pure (row ++ [Value.vNum (x - y)])
  | _, _ => none

/-- `data[newc] = data[a] - data[b]`: element-wise difference of the two
numeric columns, appended as a new last column (the label `newc` is not
present beforehand in the frames the analyser builds). -/
def add_diff_col (data : Frame) (newc a b : String) : Option Frame := do
  let ia ← data.columns.findIdx? (fun x => x == a)
  let ib ← data.columns.findIdx? (fun x => x == b)
  let cells ← mapO (diff_cell ia ib) data.cells
  pure { columns := data.columns ++ [newc],
         index := data.index,
         cells := cells }

/-- `NBPAnalyser._process_data`: on a copy of the frame, parse
`effectiveDate` into datetimes, then either drop the `no` column
(`drop_id` true) or promote it to the row index (`drop_id` false), and
finally append `spread = ask - bid`. -/
def process_data (drop_id : Bool) (data : Frame) : Option Frame := do
  let d1 ← to_datetime_col data "effectiveDate"
  let d2 ← if drop_id then drop_col d1 "no" else set_index_col d1 "no"
  add_diff_col d2 "spread" "ask" "bid"

/-- `NBPAnalyser.download_data`, after the transport and the JSON parse
succeeded: build the frame of raw records, raise `URLError('No data
found')` if it has no rows, and otherwise shape it with `_process_data`. -/
def download_data (drop_id : Bool) (records : List RawRate) :
    Except PyError Frame :=
  let result := rates_frame records
  if result.cells.length = 0 then .error (.urlError "No data found")
  else
    match process_data drop_id result with
    | none => .error .libraryError
    | some f => .ok f

theorem mapO_cons (g : α → Option β) (x : α) (xs : List α) :
    mapO g (x :: xs)
      = (g x).bind (fun y => (mapO g xs).bind (fun ys => some (y :: ys))) :=
  rfl

theorem mapO_length (g : α → Option β) (l : List α) (l2 : List β)
    (h : mapO g l = some l2) : l2.length = l.length := by
  induction l generalizing l2 with
  | nil =>
    simp only [mapO, Option.some.injEq] at h
    subst h
    rfl
  | cons x xs ih =>
    rw [mapO_cons] at h
    cases hx : g x with
    | none => rw [hx] at h; simp at h
    | some y =>
      rw [hx, Option.some_bind] at h
      cases hrest : mapO g xs with
      | none => rw [hrest] at h; simp at h
      | some ys =>
        rw [hrest, Option.some_bind, Option.some.injEq] at h
        subst h
        simp [ih ys hrest]

theorem mapO_map_zip {α β γ δ : Type} (par : α → Option δ) (g : β → Option γ)
    (f : α → β) (h : α → δ → γ)
    (H : ∀ a, g (f a) = (par a).bind (fun d => some (h a d)))
    (l : List α) (ds : List δ)
    (hp : mapO par l = some ds) :
    mapO g (l.map f) = some ((l.zip ds).map (fun p => h p.1 p.2)) := by
  induction l generalizing ds with
  | nil =>
    simp only [mapO, Option.some.injEq] at hp
    subst hp
    rfl
  | cons x xs ih =>
    rw [mapO_cons] at hp
    cases hx : par x with
    | none => rw [hx] at hp; simp at hp
    | some d =>
      rw [hx, Option.some_bind] at hp
      cases hrest : mapO par xs with
      | none => rw [hrest] at hp; simp at hp
      | some ds0 =>
        rw [hrest, Option.some_bind, Option.some.injEq] at hp
        subst hp
        rw [List.map_cons, mapO_cons, H x, hx, Option.some_bind,
          Option.some_bind, ih ds0 hrest, Option.some_bind,
          List.zip_cons_cons, List.map_cons]

/-- The raw-record frame after `pd.to_datetime` has replaced the date
strings of the records by their parsed dates. -/
def datedFrame (records : List RawRate) (dates : List Date) : Frame :=
  { columns := ["no", "effectiveDate", "bid", "ask"],
    index := none,
    cells := (records.zip dates).map (fun p =>
      [Value.vStr p.1.no, Value.vDate p.2,
       Value.vNum p.1.bid, Value.vNum p.1.ask]) }

/-- The canonical row a raw record and its parsed date shape into. -/
def shapeRow (p : RawRate × Date) : CRow :=
  { effectiveDate := p.2, bid := p.1.bid, ask := p.1.ask,
    spread := p.1.ask - p.1.bid }

theorem to_datetime_rates (records : List RawRate) (dates : List Date)
    (hp : mapO (fun r => parseDate r.effectiveDate) records = some dates) :
    to_datetime_col (rates_frame records) "effectiveDate"
      = some (datedFrame records dates) := by
  have hmap : mapO (to_datetime_cell 1) (rates_frame records).cells
      = some ((records.zip dates).map (fun p =>
          [Value.vStr p.1.no, Value.vDate p.2,
           Value.vNum p.1.bid, Value.vNum p.1.ask])) := by
    refine mapO_map_zip (fun r => parseDate r.effectiveDate)
      (to_datetime_cell 1)
      (fun r => [Value.vStr r.no, Value.vStr r.effectiveDate,
        Value.vNum r.bid, Value.vNum r.ask])
      (fun r d => [Value.vStr r.no, Value.vDate d,
        Value.vNum r.bid, Value.vNum r.ask])
      (fun a => ?_) records dates hp
    rfl
  show (mapO (to_datetime_cell 1) (rates_frame records).cells).bind
      (fun cells => some { rates_frame records with cells := cells })
    = some (datedFrame records dates)
  rw [hmap, Option.some_bind]
  rfl

/-- The dated record frame after the `no` column has been removed from the
data (dropped, or moved out to the index `idx`). -/
def strippedFrame (idx : Option (List String)) (records : List RawRate)
    (dates : List Date) : Frame :=
  { columns := ["effectiveDate", "bid", "ask"],
    index := idx,
    cells := (records.zip dates).map (fun p =>
      [Value.vDate p.2, Value.vNum p.1.bid, Value.vNum p.1.ask]) }

theorem drop_no_dated (records : List RawRate) (dates : List Date) :
    drop_col (datedFrame records dates) "no"
      = some (strippedFrame none records dates) := by
  show some { columns := ["effectiveDate", "bid", "ask"],
              index := none,
              cells := (datedFrame records dates).cells.map
                (fun row => row.eraseIdx 0) }
    = some (strippedFrame none records dates)
  rw [Option.some.injEq]
  unfold strippedFrame datedFrame
  rw [Frame.mk.injEq]
  refine ⟨rfl, rfl, ?_⟩
  rw [List.map_map]
  rfl

theorem set_index_no_dated (records : List RawRate) (dates : List Date)
    (hlen : records.length ≤ dates.length) :
    set_index_col (datedFrame records dates) "no"
      = some (strippedFrame (some (records.map RawRate.no))
          records dates) := by
  have hidx : mapO (index_cell 0) (datedFrame records dates).cells
      = some ((records.zip dates).map (fun p => p.1.no)) := by
    refine mapO_map _ _ _ (fun p => ?_) (records.zip dates)
    rfl
  show (mapO (index_cell 0) (datedFrame records dates).cells).bind
      (fun idx => some
        { columns := ["effectiveDate", "bid", "ask"],
          index := some idx,
          cells := (datedFrame records dates).cells.map
            (fun row => row.eraseIdx 0) })
    = some (strippedFrame (some (records.map RawRate.no)) records dates)
  rw [hidx, Option.some_bind, Option.some.injEq]
  unfold strippedFrame datedFrame
  rw [Frame.mk.injEq]
  refine ⟨rfl, ?_, ?_⟩
  · rw [Option.some.injEq]
    have h1 : (records.zip dates).map (fun p => p.1.no)
        = ((records.zip dates).map Prod.fst).map RawRate.no := by
      rw [List.map_map]
      rfl
    rw [h1, List.map_fst_zip records dates hlen]
  · rw [List.map_map]
    rfl

theorem add_spread_stripped (idx : Option (List String))
    (records : List RawRate) (dates : List Date) :
    add_diff_col (strippedFrame idx records dates) "spread" "ask" "bid"
      = some (mkCanonicalFrame idx ((records.zip dates).map shapeRow)) := by
  have hcells : mapO (diff_cell 2 1) (strippedFrame idx records dates).cells
      = some ((records.zip dates).map (fun p =>
          [Value.vDate p.2, Value.vNum p.1.bid, Value.vNum p.1.ask,
           Value.vNum (p.1.ask - p.1.bid)])) := by
    refine mapO_map _ _ _ (fun p => ?_) (records.zip dates)
    rfl
  show (mapO (diff_cell 2 1) (strippedFrame idx records dates).cells).bind
      (fun cells => some
        { columns := ["effectiveDate", "bid", "ask", "spread"],
          index := idx,
          cells := cells })
    = some (mkCanonicalFrame idx ((records.zip dates).map shapeRow))
  rw [hcells, Option.some_bind, Option.some.injEq]
  unfold mkCanonicalFrame
  rw [Frame.mk.injEq]
  refine ⟨rfl, rfl, ?_⟩
  rw [List.map_map]
  rfl

theorem process_data_rates (drop_id : Bool) (records : List RawRate)
    (dates : List Date)
    (hp : mapO (fun r => parseDate r.effectiveDate) records = some dates) :
    process_data drop_id (rates_frame records)
      = some (mkCanonicalFrame
          (if drop_id then none else some (records.map RawRate.no))
          ((records.zip dates).map shapeRow)) := by
  have hlen : dates.length = records.length := mapO_length _ _ _ hp
  unfold process_data
  rw [to_datetime_rates records dates hp]
  cases drop_id with
  | true =>
    simp only [Option.bind_eq_bind, Option.some_bind, if_true]
    rw [drop_no_dated records dates]
    simp only [Option.some_bind]
    rw [add_spread_stripped]
  | false =>
    simp only [Option.bind_eq_bind, Option.some_bind, if_false]
    rw [set_index_no_dated records dates (by omega)]
    simp only [Option.some_bind]
    rw [add_spread_stripped]
    rfl

theorem download_data_char (drop_id : Bool) (records : List RawRate)
    (dates : List Date)
    (hp : mapO (fun r => parseDate r.effectiveDate) records = some dates)
    (hne : records ≠ []) :
    download_data drop_id records
      = .ok (mkCanonicalFrame
          (if drop_id then none else some (records.map RawRate.no))
          ((records.zip dates).map shapeRow)) := by
  have hlen0 : ¬ ((rates_frame records).cells.length = 0) := by
    simp only [rates_frame, List.length_map, ne_eq, List.length_eq_zero]
    exact hne
  show (if (rates_frame records).cells.length = 0
      then Except.error (PyError.urlError "No data found")
      else match process_data drop_id (rates_frame records) with
        | none => Except.error PyError.libraryError
        | some f => Except.ok f)
    = _
  rw [if_neg hlen0, process_data_rates drop_id records dates hp]

/-- Decimal digits of `n` left-padded with zeros to `width` characters
(the formatting of one `strftime` field). -/
def padNat (width n : Nat) : String :=
  let s := toString n
  String.mk (List.replicate (width - s.length) '0') ++ s

/-- `date.strftime('%Y-%m-%d')`. -/
def strftime_ymd (d : Date) : String :=
  padNat 4 d.year ++ "-" ++ padNat 2 d.month ++ "-" ++ padNat 2 d.day

/-- `NBPAnalyser.get_extension`: reject a range whose end date lies before
its start date, then assemble the API suffix from the formatted currency
code and the two `%Y-%m-%d` dates. -/
def get_extension (start_date end_date : Date) (currency : String) :
    Except PyError String :=
  if Date.ltb end_date start_date then
    .error (.valueError "end_date must be after start_date")
  else
    .ok (format_code currency ++ "/" ++ strftime_ymd start_date ++ "/"
      ++ strftime_ymd end_date ++ "?format=json")

/-- The configuration state of an `NBPAnalyser` instance (the base URL is
a fixed constant from `global_settings` and the class holds no other
state). -/
structure NBPAnalyser where
  drop_id : Bool
  timeout : ℚ
deriving DecidableEq, Repr

/-- `NBPAnalyser.__init__`: raise on a non-positive timeout before any
state is stored. -/
def analyser_init (drop_id : Bool) (timeout : ℚ) :
    Except PyError NBPAnalyser :=
  if timeout ≤ 0 then .error (.valueError "timeout must be positive")
  else .ok { drop_id := drop_id, timeout := timeout }

/-- The `timeout` property setter: raise on a non-positive value before
assigning, so a failed mutation leaves the stored timeout untouched. -/
def set_timeout (a : NBPAnalyser) (value : ℚ) :
    Except PyError NBPAnalyser :=
  if value ≤ 0 then .error (.valueError "timeout must be positive")
  else .ok { a with timeout := value }

/-- C5: `get_extension` fails (with the `ValueError` standing for the
spec's `RangeError`) exactly when the end date is before the start date,
whatever the code is, and otherwise returns
`CODE/YYYY-MM-DD/YYYY-MM-DD?format=json` built from the formatted code
and the two formatted dates. -/
theorem get_extension_spec (s e : Date) (c : String) :
    ((get_extension s e c).isOk = false ↔ Date.ltb e s = true)
      ∧ (Date.ltb e s = true →
        get_extension s e c
          = .error (.valueError "end_date must be after start_date"))
      ∧ (Date.ltb e s = false →
        get_extension s e c
          = .ok (format_code c ++ "/" ++ strftime_ymd s ++ "/"
              ++ strftime_ymd e ++ "?format=json")) := by
  unfold get_extension
  cases hlt : Date.ltb e s <;>
    simp [Except.isOk, Except.toBool]

/-- C5 witness: the reversed range of the test suite fails, and the
example call yields exactly `USD/2024-09-05/2024-10-06?format=json`. -/
theorem get_extension_spec_witness :
    get_extension ⟨2024, 10, 6⟩ ⟨2024, 9, 5⟩ " uSd "
        = .error (.valueError "end_date must be after start_date")
      ∧ get_extension ⟨2024, 9, 5⟩ ⟨2024, 10, 6⟩ " uSd "
        = .ok "USD/2024-09-05/2024-10-06?format=json" := by
  constructor
  · exact (get_extension_spec ⟨2024, 10, 6⟩ ⟨2024, 9, 5⟩ " uSd ").2.1
      (by decide)
  · rw [(get_extension_spec ⟨2024, 9, 5⟩ ⟨2024, 10, 6⟩ " uSd ").2.2
      (by decide), Except.ok.injEq]
    decide

/-- C9: constructing the analyser with a non-positive timeout, or setting
the `timeout` property to a non-positive value, fails with the
`ValueError` standing for the spec's `ConfigurationError` (the error is
raised before any assignment, so the functional result carries no new
state and the previously stored timeout survives unchanged), while every
strictly positive value is accepted and stored. -/
theorem timeout_spec (drop_id : Bool) (t v : ℚ) (a : NBPAnalyser) :
    ((analyser_init drop_id t).isOk = true ↔ 0 < t)
      ∧ (t ≤ 0 → analyser_init drop_id t
          = .error (.valueError "timeout must be positive"))
      ∧ (0 < t → analyser_init drop_id t
          = .ok { drop_id := drop_id, timeout := t })
      ∧ (v ≤ 0 → set_timeout a v
          = .error (.valueError "timeout must be positive"))
      ∧ (0 < v → set_timeout a v = .ok { a with timeout := v }) := by
  unfold analyser_init set_timeout
  by_cases ht : t ≤ 0 <;> by_cases hv : v ≤ 0 <;>
    simp [ht, hv, Except.isOk, Except.toBool] <;> linarith

/-- C9 witness: timeout 0 is rejected at construction and by the setter
(leaving the analyser as it was), 20 is accepted. -/
theorem timeout_spec_witness :
    analyser_init true 0 = .error (.valueError "timeout must be positive")
      ∧ set_timeout { drop_id := false, timeout := 30 } 0
        = .error (.valueError "timeout must be positive")
      ∧ set_timeout { drop_id := false, timeout := 30 } 20
        = .ok { drop_id := false, timeout := 20 } := by
  refine ⟨(timeout_spec true 0 0
      { drop_id := false, timeout := 30 }).2.1 (by norm_num),
    (timeout_spec true 0 0
      { drop_id := false, timeout := 30 }).2.2.2.1 (by norm_num), ?_⟩
  exact (timeout_spec true 0 20
    { drop_id := false, timeout := 30 }).2.2.2.2 (by norm_num)

/-- The three raw records of the test suite's mocked NBP response. -/
def testRecords : List RawRate :=
  [{ no := "173/C/NBP/2024", effectiveDate := "2024-10-01",
     bid := 4.05, ask := 4.06 },
   { no := "174/C/NBP/2024", effectiveDate := "2024-10-02",
     bid := 4.09, ask := 4.10 },
   { no := "175/C/NBP/2024", effectiveDate := "2024-10-03",
     bid := 4.08, ask := 4.11 }]

/-- The canonical rows of the worked example in the spec and tests. -/
def testRows : List CRow :=
  [{ effectiveDate := ⟨2024, 10, 1⟩, bid := 4.05, ask := 4.06,
     spread := 0.01 },
   { effectiveDate := ⟨2024, 10, 2⟩, bid := 4.09, ask := 4.10,
     spread := 0.01 },
   { effectiveDate := ⟨2024, 10, 3⟩, bid := 4.08, ask := 4.11,
     spread := 0.03 }]

/-- C1: for every non-empty record sequence whose dates parse, the Shaper
(`download_data` / `_process_data`) returns a frame whose columns are
exactly `effectiveDate, bid, ask, spread` (so no identifier column
remains as data), whose i-th row holds the i-th record's parsed date,
bid, ask, and `spread = ask - bid` (rows in input order), and whose index
is the default one when `drop_id` is true and the record identifiers when
it is false. -/
theorem shaper_spec (drop_id : Bool) (records : List RawRate)
    (dates : List Date)
    (hp : mapO (fun r => parseDate r.effectiveDate) records = some dates)
    (hne : records ≠ []) :
    ∃ f, download_data drop_id records = .ok f
      ∧ f.columns = ["effectiveDate", "bid", "ask", "spread"]
      ∧ f.cells = (records.zip dates).map (fun p =>
          [Value.vDate p.2, Value.vNum p.1.bid, Value.vNum p.1.ask,
           Value.vNum (p.1.ask - p.1.bid)])
      ∧ f.index = (if drop_id then none
          else some (records.map RawRate.no)) := by
  refine ⟨_, download_data_char drop_id records dates hp hne, rfl, ?_, rfl⟩
  show (((records.zip dates).map shapeRow).map _) = _
  rw [List.map_map]
  rfl

/-- C1 witness: the three mocked records, with the identifier kept,
shape into the frame the test suite expects. -/
theorem shaper_spec_witness :
    ∃ f, download_data false testRecords = .ok f
      ∧ f.columns = ["effectiveDate", "bid", "ask", "spread"]
      ∧ f.cells = (testRecords.zip
          [⟨2024, 10, 1⟩, ⟨2024, 10, 2⟩, ⟨2024, 10, 3⟩]).map (fun p =>
          [Value.vDate p.2, Value.vNum p.1.bid, Value.vNum p.1.ask,
           Value.vNum (p.1.ask - p.1.bid)])
      ∧ f.index = (if false then none
          else some (testRecords.map RawRate.no)) :=
  shaper_spec false testRecords
    [⟨2024, 10, 1⟩, ⟨2024, 10, 2⟩, ⟨2024, 10, 3⟩] (by decide) (by decide)

/-- C7: a payload whose `rates` array is empty makes `download_data` fail
with `URLError('No data found')` — the spec's `FetchError` — for either
value of `drop_id`, instead of returning an empty frame. -/
theorem empty_rates_spec (drop_id : Bool) :
    download_data drop_id [] = .error (.urlError "No data found") := rfl

/-- C3: on every non-empty canonical table, `get_summary` returns one
(variable, min, mean, max) group per variable, the groups ordered
ask, bid, spread (ascending key order, independent of the melt order,
which puts bid first). -/
theorem summary_spec (idx : Option (List String)) (rows : List CRow)
    (h : rows ≠ []) :
    get_summary (mkCanonicalFrame idx rows)
      = .ok [("ask", listMin (rows.map CRow.ask),
                listMean (rows.map CRow.ask), listMax (rows.map CRow.ask)),
             ("bid", listMin (rows.map CRow.bid),
                listMean (rows.map CRow.bid), listMax (rows.map CRow.bid)),
             ("spread", listMin (rows.map CRow.spread),
                listMean (rows.map CRow.spread),
                listMax (rows.map CRow.spread))] :=
  get_summary_canonical idx rows h

/-- C3 witness: the worked example of the spec, with the exact rational
means 611/150 = 4.0733… and 1/60 = 0.01666…. -/
theorem summary_spec_witness :
    get_summary (mkCanonicalFrame none testRows)
      = .ok [("ask", 4.06, 4.09, 4.11),
             ("bid", 4.05, 611 / 150, 4.09),
             ("spread", 0.01, 1 / 60, 0.03)] := by
  rw [summary_spec none testRows (by decide), Except.ok.injEq]
  simp only [testRows, List.map_cons, List.map_nil, listMin, listMean,
    listMax, List.foldl, List.sum_cons, List.sum_nil, List.length_cons,
    List.length_nil]
  norm_num [min_def, max_def]

/-- C4: melting a canonical table yields one row per (date, variable)
pair, grouped by source column in the table's column order — all bid rows
in date order, then all ask rows, then all spread rows — and the melted
frame `draw_histograms` hands to the plotting collaborator (after
`spread` is dropped) is all bid rows in date order followed by all ask
rows in date order. -/
theorem melt_order_spec (idx : Option (List String)) (rows : List CRow)
    (h : rows ≠ []) :
    melt_data (mkCanonicalFrame idx rows)
        = some (bidRows rows ++ askRows rows ++ spreadRows rows)
      ∧ draw_histograms (mkCanonicalFrame idx rows)
        = .ok (bidRows rows ++ askRows rows) :=
  ⟨melt_canonical idx rows, draw_histograms_canonical idx rows h⟩

/-- C4 witness: on the worked example the histogram collaborator receives
the three bid rows in date order followed by the three ask rows. -/
theorem melt_order_spec_witness :
    draw_histograms (mkCanonicalFrame none testRows)
      = .ok [⟨Value.vDate ⟨2024, 10, 1⟩, "bid", Value.vNum 4.05⟩,
             ⟨Value.vDate ⟨2024, 10, 2⟩, "bid", Value.vNum 4.09⟩,
             ⟨Value.vDate ⟨2024, 10, 3⟩, "bid", Value.vNum 4.08⟩,
             ⟨Value.vDate ⟨2024, 10, 1⟩, "ask", Value.vNum 4.06⟩,
             ⟨Value.vDate ⟨2024, 10, 2⟩, "ask", Value.vNum 4.10⟩,
             ⟨Value.vDate ⟨2024, 10, 3⟩, "ask", Value.vNum 4.11⟩] := by
  rw [(melt_order_spec none testRows (by decide)).2, Except.ok.injEq]
  rfl

/-- C10: every frame the Shaper produces from a non-empty, parseable
record sequence is canonical under either `drop_id` setting — exactly the
four canonical columns in canonical order, at least one row — and is
therefore accepted by `get_summary`, `draw_histograms` and
`draw_time_series` without the shape `ValueError`. -/
theorem shaper_always_canonical (drop_id : Bool) (records : List RawRate)
    (dates : List Date)
    (hp : mapO (fun r => parseDate r.effectiveDate) records = some dates)
    (hne : records ≠ []) :
    ∃ f, download_data drop_id records = .ok f
      ∧ check_frame f = true
      ∧ (get_summary f).isOk = true
      ∧ (draw_histograms f).isOk = true
      ∧ (draw_time_series f).isOk = true := by
  have hlen : dates.length = records.length := mapO_length _ _ _ hp
  have hrows : ((records.zip dates).map shapeRow) ≠ [] := by
    rw [ne_eq, List.map_eq_nil_iff, ← List.length_eq_zero,
      List.length_zip, hlen, Nat.min_self, List.length_eq_zero]
    exact hne
  refine ⟨_, download_data_char drop_id records dates hp hne, ?_, ?_, ?_, ?_⟩
  · rw [check_frame_canonical]
    simpa using hrows
  · rw [get_summary_canonical _ _ hrows]
    rfl
  · rw [draw_histograms_canonical _ _ hrows]
    rfl
  · rw [draw_time_series_canonical _ _ hrows]
    rfl

/-- C10 witness: the shaped test frame, with the identifier dropped,
passes the validator and all three consumers. -/
theorem shaper_always_canonical_witness :
    ∃ f, download_data true testRecords = .ok f
      ∧ check_frame f = true
      ∧ (get_summary f).isOk = true
      ∧ (draw_histograms f).isOk = true
      ∧ (draw_time_series f).isOk = true :=
  shaper_always_canonical true testRecords
    [⟨2024, 10, 1⟩, ⟨2024, 10, 2⟩, ⟨2024, 10, 3⟩] (by decide) (by decide)
